import Mathlib

/-!
Verification of the scoring and competitor-selection logic of `src/app.py`
(ESG market-intelligence dashboard).

The price history fetched for a ticker is modelled as a `List ℚ` of daily
closing prices (the `Close` column, in chronological order); an empty list
models an empty fetch result (`hist.empty`).  The floating-point pipeline of
`calculate_esg` is embedded over exact arithmetic:

* `hist["Close"].pct_change()` followed by `dropna()` is `pctChange`, the
  list of simple returns `price[i]/price[i-1] - 1` (the first, undefined,
  entry is dropped);
* `hist["returns"].mean()` is `series_mean`: pandas yields NaN on an empty
  series, modelled as `none`;
* `hist["returns"].std()` is the square root of the sample variance with
  `ddof = 1` (the pandas default), which pandas yields as NaN when fewer
  than two observations remain, modelled as `series_var = none`;
* a NaN propagating through the remaining arithmetic (the code has no
  further guard) is the `EsgResult.nanScore` outcome;
* the irrational parts (`np.sqrt`) live in `ℝ` via `Real.sqrt`.
-/

/-- The record of intermediate and final values produced by one run of the
scoring pipeline (the spec's `ScoreResult`).  `sharpe` models the code's
`sharpe_ratio` variable. -/
structure ScoreResult where
  volatility : ℝ
  mean_return : ℝ
  sharpe : ℝ
  vol_score : ℝ
  return_score : ℝ
  sharpe_score : ℝ
  esg_score : ℝ

/-- `np.clip(x, lo, hi)`: values below `lo` become `lo`, above `hi` become
`hi`. -/
noncomputable def clip (x lo hi : ℝ) : ℝ := min (max x lo) hi

/-- `hist["Close"].pct_change()` followed by `dropna()`: the list of daily
simple returns `price[i]/price[i-1] - 1` for `i = 1 .. n-1` (the first row,
whose return is undefined, is dropped). -/
def pctChange (prices : List ℚ) : List ℚ :=
  (prices.zip prices.tail).map (fun p => p.2 / p.1 - 1)

/-- Mean of the return series (`retMean`, total rational form). -/
def retMean (xs : List ℚ) : ℚ := xs.sum / (xs.length : ℚ)

/-- Sample variance of the return series with `ddof = 1` (the pandas
default for `Series.std`), total rational form. -/
def retVar (xs : List ℚ) : ℚ :=
  (xs.map (fun x => (x - retMean xs) ^ 2)).sum / ((xs.length : ℚ) - 1)

/-- `hist["returns"].mean()`: pandas produces NaN on an empty series,
modelled as `none`. -/
def series_mean (xs : List ℚ) : Option ℚ :=
  if xs.length = 0 then none else some (retMean xs)

/-- The square of `hist["returns"].std()`: pandas `Series.std` uses
`ddof = 1` and produces NaN when fewer than two observations remain,
modelled as `none`.  (The std itself is `Real.sqrt` of this value.) -/
def series_var (xs : List ℚ) : Option ℚ :=
  if xs.length < 2 then none else some (retVar xs)

/-- `vol_score = 1 / (1 + volatility * 8)` (line 71 of `src/app.py`). -/
noncomputable def vol_score_fn (v : ℝ) : ℝ := 1 / (1 + v * 8)

/-- `return_score = np.clip((mean_return + 0.2) / 0.4, 0, 1)` (line 72). -/
noncomputable def return_score_fn (m : ℝ) : ℝ := clip ((m + 0.2) / 0.4) 0 1

/-- `sharpe_score = np.clip((sharpe_ratio + 2) / 4, 0, 1)` (line 73). -/
noncomputable def sharpe_score_fn (s : ℝ) : ℝ := clip ((s + 2) / 4) 0 1

/-- Lines 67–81 of `src/app.py`, given the (defined) mean `m` and sample
variance `varr` of the daily return series:
`volatility = std * np.sqrt(252)`, `mean_return = mean * 252`,
`sharpe_ratio = mean_return / (volatility + 1e-6)`, the three sub-scores,
and `esg_score = np.clip(vol*35 + ret*30 + sharpe*35, 0, 100)`. -/
noncomputable def scoreFrom (m varr : ℚ) : ScoreResult :=
  let volatility : ℝ := Real.sqrt (varr : ℝ) * Real.sqrt 252
  let mean_return : ℝ := (m : ℝ) * 252
  let sharpe : ℝ := mean_return / (volatility + 1e-6)
  let vol_score : ℝ := vol_score_fn volatility
  let return_score : ℝ := return_score_fn mean_return
  let sharpe_score : ℝ := sharpe_score_fn sharpe
  let esg_raw : ℝ := vol_score * 35 + return_score * 30 + sharpe_score * 35
  ⟨volatility, mean_return, sharpe, vol_score, return_score, sharpe_score,
    clip esg_raw 0 100⟩

/-- The three possible outcomes of `calculate_esg`:
`noData` is the `return None, None` taken when `hist.empty`;
`nanScore` is a returned float that is NaN (the mean or std of the return
series was NaN and propagated unguarded through the arithmetic);
`score r` is a fully defined `ScoreResult`. -/
inductive EsgResult where
  | noData : EsgResult
  | nanScore : EsgResult
  | score : ScoreResult → EsgResult

/-- `calculate_esg` (lines 57–83 of `src/app.py`) as a function of the
fetched closing-price history: empty history returns `None` (`noData`);
otherwise the return series is computed, and the mean/std stage decides
between a NaN result and a real `ScoreResult`. -/
noncomputable def calculate_esg (prices : List ℚ) : EsgResult :=
  if prices.isEmpty then EsgResult.noData
  else
    match series_mean (pctChange prices), series_var (pctChange prices) with
    | some m, some v => EsgResult.score (scoreFrom m v)
    | _, _ => EsgResult.nanScore

/-- `true` exactly on the `noData` outcome: the caller's
`company_esg is None` test (line 110 of `src/app.py`). -/
def isNoData : EsgResult → Bool
  | EsgResult.noData => true
  | _ => false

-- ---------------------------------------------------------------------
-- Basic structural lemmas
-- ---------------------------------------------------------------------

theorem pctChange_length (prices : List ℚ) :
    (pctChange prices).length = prices.length - 1 := by
  simp [pctChange, List.length_zip, List.length_tail]

theorem calculate_esg_eq_score (prices : List ℚ) (h : 3 ≤ prices.length) :
    calculate_esg prices =
      EsgResult.score
        (scoreFrom (retMean (pctChange prices)) (retVar (pctChange prices))) := by
  have hlen : (pctChange prices).length = prices.length - 1 :=
    pctChange_length prices
  have hne : prices.isEmpty = false := by
    cases prices with
    | nil => simp at h
    | cons a l => simp
  have hc1 : ¬ (pctChange prices).length = 0 := by omega
  have hc2 : ¬ (pctChange prices).length < 2 := by omega
  simp [calculate_esg, series_mean, series_var, hne, hc1, hc2]

theorem le_clip (x lo hi : ℝ) (h : lo ≤ hi) : lo ≤ clip x lo hi :=
  le_min (le_max_right x lo) h

theorem clip_le (x lo hi : ℝ) : clip x lo hi ≤ hi := min_le_right _ _

theorem clip_eq_of_mem (x lo hi : ℝ) (h1 : lo ≤ x) (h2 : x ≤ hi) :
    clip x lo hi = x := by
  unfold clip
  rw [max_eq_left h1, min_eq_left h2]

theorem clip_mono (lo hi : ℝ) {x y : ℝ} (h : x ≤ y) :
    clip x lo hi ≤ clip y lo hi :=
  min_le_min (max_le_max h le_rfl) le_rfl

-- Field-level description of `scoreFrom`.

theorem scoreFrom_volatility (m varr : ℚ) :
    (scoreFrom m varr).volatility = Real.sqrt (varr : ℝ) * Real.sqrt 252 := rfl

theorem scoreFrom_mean_return (m varr : ℚ) :
    (scoreFrom m varr).mean_return = (m : ℝ) * 252 := rfl

theorem scoreFrom_sharpe (m varr : ℚ) :
    (scoreFrom m varr).sharpe =
      (scoreFrom m varr).mean_return / ((scoreFrom m varr).volatility + 1e-6) := rfl

theorem scoreFrom_vol_score (m varr : ℚ) :
    (scoreFrom m varr).vol_score = vol_score_fn (scoreFrom m varr).volatility := rfl

theorem scoreFrom_return_score (m varr : ℚ) :
    (scoreFrom m varr).return_score = return_score_fn (scoreFrom m varr).mean_return := rfl

theorem scoreFrom_sharpe_score (m varr : ℚ) :
    (scoreFrom m varr).sharpe_score = sharpe_score_fn (scoreFrom m varr).sharpe := rfl

theorem scoreFrom_esg_score (m varr : ℚ) :
    (scoreFrom m varr).esg_score =
      clip ((scoreFrom m varr).vol_score * 35 + (scoreFrom m varr).return_score * 30 +
        (scoreFrom m varr).sharpe_score * 35) 0 100 := rfl

-- Bounds on the sub-scores.

theorem scoreFrom_volatility_nonneg (m varr : ℚ) :
    0 ≤ (scoreFrom m varr).volatility :=
  mul_nonneg (Real.sqrt_nonneg _) (Real.sqrt_nonneg _)

theorem vol_score_fn_pos {v : ℝ} (h : 0 ≤ v) : 0 < vol_score_fn v := by
  unfold vol_score_fn
  positivity

theorem vol_score_fn_le_one {v : ℝ} (h : 0 ≤ v) : vol_score_fn v ≤ 1 := by
  unfold vol_score_fn
  rw [div_le_one (by positivity)]
  nlinarith

theorem return_score_fn_mem (m : ℝ) :
    0 ≤ return_score_fn m ∧ return_score_fn m ≤ 1 :=
  ⟨le_clip _ _ _ (by norm_num), clip_le _ _ _⟩

theorem sharpe_score_fn_mem (s : ℝ) :
    0 ≤ sharpe_score_fn s ∧ sharpe_score_fn s ≤ 1 :=
  ⟨le_clip _ _ _ (by norm_num), clip_le _ _ _⟩

/-- The pre-clip weighted sum lies in `(0, 100]`, so the final
`np.clip(..., 0, 100)` never changes it. -/
theorem scoreFrom_esg_raw_mem (m varr : ℚ) :
    0 < (scoreFrom m varr).vol_score * 35 + (scoreFrom m varr).return_score * 30 +
        (scoreFrom m varr).sharpe_score * 35 ∧
      (scoreFrom m varr).vol_score * 35 + (scoreFrom m varr).return_score * 30 +
        (scoreFrom m varr).sharpe_score * 35 ≤ 100 := by
  have hv := scoreFrom_volatility_nonneg m varr
  have h1 := vol_score_fn_pos hv
  have h2 := vol_score_fn_le_one hv
  have h3 := return_score_fn_mem ((scoreFrom m varr).mean_return)
  have h4 := sharpe_score_fn_mem ((scoreFrom m varr).sharpe)
  rw [scoreFrom_vol_score, scoreFrom_return_score, scoreFrom_sharpe_score]
  constructor
  · nlinarith [h3.1, h4.1]
  · nlinarith [h3.2, h4.2]

theorem scoreFrom_esg_eq_raw (m varr : ℚ) :
    (scoreFrom m varr).esg_score =
      (scoreFrom m varr).vol_score * 35 + (scoreFrom m varr).return_score * 30 +
        (scoreFrom m varr).sharpe_score * 35 := by
  rw [scoreFrom_esg_score]
  exact clip_eq_of_mem _ _ _ (le_of_lt (scoreFrom_esg_raw_mem m varr).1)
    (scoreFrom_esg_raw_mem m varr).2

theorem scoreFrom_esg_mem (m varr : ℚ) :
    0 ≤ (scoreFrom m varr).esg_score ∧ (scoreFrom m varr).esg_score ≤ 100 := by
  rw [scoreFrom_esg_eq_raw]
  exact ⟨le_of_lt (scoreFrom_esg_raw_mem m varr).1, (scoreFrom_esg_raw_mem m varr).2⟩

theorem calculate_esg_nil : calculate_esg [] = EsgResult.noData := rfl

/-- A non-empty history of fewer than 3 points leaves fewer than 2 returns,
so the pandas std is NaN and the NaN propagates to the returned score. -/
theorem calculate_esg_short (prices : List ℚ) (h0 : prices ≠ [])
    (h : prices.length < 3) : calculate_esg prices = EsgResult.nanScore := by
  have hlen := pctChange_length prices
  have hne : prices.isEmpty = false := by
    cases prices with
    | nil => exact absurd rfl h0
    | cons a l => simp
  have hc2 : (pctChange prices).length < 2 := by omega
  by_cases h1 : (pctChange prices).length = 0
  · simp [calculate_esg, series_mean, series_var, hne, h1, hc2]
  · simp [calculate_esg, series_mean, series_var, hne, h1, hc2]

/-- Inversion: a real `ScoreResult` is produced only from a history of at
least 3 points, and then it is exactly `scoreFrom` of the return series'
mean and sample variance. -/
theorem calculate_esg_score_inv (prices : List ℚ) (r : ScoreResult)
    (h : calculate_esg prices = EsgResult.score r) :
    3 ≤ prices.length ∧
      r = scoreFrom (retMean (pctChange prices)) (retVar (pctChange prices)) := by
  by_cases h3 : 3 ≤ prices.length
  · have he := calculate_esg_eq_score prices h3
    rw [he] at h
    exact ⟨h3, (EsgResult.score.inj h).symm⟩
  · exfalso
    by_cases h0 : prices = []
    · rw [h0, calculate_esg_nil] at h
      exact EsgResult.noConfusion h
    · rw [calculate_esg_short prices h0 (by omega)] at h
      exact EsgResult.noConfusion h

-- ---------------------------------------------------------------------
-- C1
-- ---------------------------------------------------------------------

/-- C1 counterexample: the price series `[1, 2]` has 2 points, not all
equal, yet `calculate_esg` produces the NaN outcome (`std` of the single
remaining return is NaN under pandas `ddof = 1`), not a real score in
`[0, 100]`. -/
theorem two_point_series_gives_nan :
    2 ≤ ([1, 2] : List ℚ).length ∧
      ¬ (∀ p ∈ ([1, 2] : List ℚ), ∀ q ∈ ([1, 2] : List ℚ), p = q) ∧
      calculate_esg [1, 2] = EsgResult.nanScore := by
  refine ⟨by decide, by decide, ?_⟩
  rfl

/-- C1 (amended): for every price series with at least 3 points that are
not all equal, the esg_score computed by the scoring function is a real
number in the closed interval `[0, 100]`. -/
theorem esg_score_in_range_of_three_points (prices : List ℚ)
    (h3 : 3 ≤ prices.length)
    (hne : ¬ (∀ p ∈ prices, ∀ q ∈ prices, p = q)) :
    ∃ r, calculate_esg prices = EsgResult.score r ∧
      0 ≤ r.esg_score ∧ r.esg_score ≤ 100 := by
  refine ⟨scoreFrom (retMean (pctChange prices)) (retVar (pctChange prices)),
    calculate_esg_eq_score prices h3, ?_, ?_⟩
  · exact (scoreFrom_esg_mem _ _).1
  · exact (scoreFrom_esg_mem _ _).2

/-- C1 witness: the hypotheses of `esg_score_in_range_of_three_points` are
satisfied by the concrete series `[1, 2, 4]`. -/
theorem esg_score_in_range_witness :
    ∃ r, calculate_esg [1, 2, 4] = EsgResult.score r ∧
      0 ≤ r.esg_score ∧ r.esg_score ≤ 100 :=
  esg_score_in_range_of_three_points [1, 2, 4] (by decide) (by decide)

-- ---------------------------------------------------------------------
-- C2
-- ---------------------------------------------------------------------

/-- C2: every produced `ScoreResult` satisfies
`esg_score = clip(vol_score*35 + return_score*30 + sharpe_score*35, 0, 100)`;
the pre-clip sum already lies in `[0, 100]` (each sub-score is in `[0, 1]`),
so the final clip never changes the value; all sub-scores 0 would give
score 0, all sub-scores 1 would give score 100. -/
theorem esg_weighted_composite (prices : List ℚ) (r : ScoreResult)
    (h : calculate_esg prices = EsgResult.score r) :
    r.esg_score =
        clip (r.vol_score * 35 + r.return_score * 30 + r.sharpe_score * 35) 0 100 ∧
      (0 ≤ r.vol_score * 35 + r.return_score * 30 + r.sharpe_score * 35 ∧
        r.vol_score * 35 + r.return_score * 30 + r.sharpe_score * 35 ≤ 100) ∧
      r.esg_score = r.vol_score * 35 + r.return_score * 30 + r.sharpe_score * 35 ∧
      ((r.vol_score = 0 ∧ r.return_score = 0 ∧ r.sharpe_score = 0) →
        r.esg_score = 0) ∧
      ((r.vol_score = 1 ∧ r.return_score = 1 ∧ r.sharpe_score = 1) →
        r.esg_score = 100) := by
  obtain ⟨h3, hr⟩ := calculate_esg_score_inv prices r h
  subst hr
  refine ⟨scoreFrom_esg_score _ _,
    ⟨le_of_lt (scoreFrom_esg_raw_mem _ _).1, (scoreFrom_esg_raw_mem _ _).2⟩,
    scoreFrom_esg_eq_raw _ _, ?_, ?_⟩
  · rintro ⟨ha, hb, hc⟩
    rw [scoreFrom_esg_eq_raw, ha, hb, hc]
    norm_num
  · rintro ⟨ha, hb, hc⟩
    rw [scoreFrom_esg_eq_raw, ha, hb, hc]
    norm_num

/-- C2 witness: the composite identity holds at the concrete constant
series `[1, 1, 1]`. -/
theorem esg_weighted_composite_witness :
    (scoreFrom (retMean (pctChange [1, 1, 1])) (retVar (pctChange [1, 1, 1]))).esg_score =
      (scoreFrom (retMean (pctChange [1, 1, 1])) (retVar (pctChange [1, 1, 1]))).vol_score * 35 +
      (scoreFrom (retMean (pctChange [1, 1, 1])) (retVar (pctChange [1, 1, 1]))).return_score * 30 +
      (scoreFrom (retMean (pctChange [1, 1, 1])) (retVar (pctChange [1, 1, 1]))).sharpe_score * 35 :=
  (esg_weighted_composite [1, 1, 1]
    (scoreFrom (retMean (pctChange [1, 1, 1])) (retVar (pctChange [1, 1, 1]))) rfl).2.2.1

-- ---------------------------------------------------------------------
-- C5
-- ---------------------------------------------------------------------

/-- C5: for a price series whose daily returns have mean 0 and standard
deviation 0 (constant price), the pipeline yields volatility 0,
mean_return 0, sharpe_ratio 0 (the ε-guarded division `0 / (0 + 1e-6)`),
vol_score 1, return_score 1/2, sharpe_score 1/2 and esg_score 67.5. -/
theorem esg_constant_price (prices : List ℚ)
    (hm : series_mean (pctChange prices) = some 0)
    (hv : series_var (pctChange prices) = some 0) :
    calculate_esg prices = EsgResult.score (scoreFrom 0 0) ∧
      (scoreFrom 0 0).volatility = 0 ∧
      (scoreFrom 0 0).mean_return = 0 ∧
      (scoreFrom 0 0).sharpe = 0 ∧
      (scoreFrom 0 0).vol_score = 1 ∧
      (scoreFrom 0 0).return_score = 1 / 2 ∧
      (scoreFrom 0 0).sharpe_score = 1 / 2 ∧
      (scoreFrom 0 0).esg_score = 67.5 := by
  have hne : prices.isEmpty = false := by
    cases prices with
    | nil => simp [pctChange, series_mean] at hm
    | cons a l => simp
  have hvol : (scoreFrom 0 0).volatility = 0 := by
    rw [scoreFrom_volatility]
    norm_num
  have hmean : (scoreFrom 0 0).mean_return = 0 := by
    rw [scoreFrom_mean_return]
    norm_num
  have hsha : (scoreFrom 0 0).sharpe = 0 := by
    rw [scoreFrom_sharpe, hvol, hmean]
    norm_num
  have hvs : (scoreFrom 0 0).vol_score = 1 := by
    rw [scoreFrom_vol_score, hvol]
    unfold vol_score_fn
    norm_num
  have hrs : (scoreFrom 0 0).return_score = 1 / 2 := by
    rw [scoreFrom_return_score, hmean]
    unfold return_score_fn
    rw [clip_eq_of_mem _ _ _ (by norm_num) (by norm_num)]
    norm_num
  have hss : (scoreFrom 0 0).sharpe_score = 1 / 2 := by
    rw [scoreFrom_sharpe_score, hsha]
    unfold sharpe_score_fn
    rw [clip_eq_of_mem _ _ _ (by norm_num) (by norm_num)]
    norm_num
  refine ⟨?_, hvol, hmean, hsha, hvs, hrs, hss, ?_⟩
  · simp [calculate_esg, hne, hm, hv]
  · rw [scoreFrom_esg_eq_raw, hvs, hrs, hss]
    norm_num

/-- C5 witness: the constant series `[5, 5, 5]` has return mean 0 and
return sample variance 0, and hence esg_score 67.5. -/
theorem esg_constant_price_witness :
    calculate_esg [5, 5, 5] = EsgResult.score (scoreFrom 0 0) ∧
      (scoreFrom 0 0).esg_score = 67.5 :=
  ⟨(esg_constant_price [5, 5, 5]
      (by norm_num [series_mean, pctChange, retMean])
      (by norm_num [series_var, pctChange, retMean, retVar])).1,
    (esg_constant_price [5, 5, 5]
      (by norm_num [series_mean, pctChange, retMean])
      (by norm_num [series_var, pctChange, retMean, retVar])).2.2.2.2.2.2.2⟩

-- ---------------------------------------------------------------------
-- C3
-- ---------------------------------------------------------------------

/-- C3 (code bug): for a single-element price series the only guard in the
code (`hist.empty`) does not fire, so instead of the `InsufficientData`
signal (`None`, the `noData` outcome) the function returns a NaN score
value. -/
theorem single_point_gives_nan_not_nodata :
    calculate_esg [100] = EsgResult.nanScore ∧
      EsgResult.nanScore ≠ EsgResult.noData := by
  refine ⟨rfl, ?_⟩
  intro h
  exact EsgResult.noConfusion h

-- ---------------------------------------------------------------------
-- C4
-- ---------------------------------------------------------------------

/-- C4: for every input that passes the spec's minimum-length condition
(at least 2 price points remain after removing the first, undefined,
return), all arithmetic is total: a `ScoreResult` is produced, the
volatility is non-negative, the ε-guarded denominator
`volatility + 1e-6` is strictly positive, and `sharpe_ratio` is exactly
`mean_return / (volatility + 1e-6)`. -/
theorem esg_arithmetic_total (prices : List ℚ)
    (h2 : 2 ≤ (pctChange prices).length) :
    ∃ r, calculate_esg prices = EsgResult.score r ∧
      0 ≤ r.volatility ∧
      0 < r.volatility + 1e-6 ∧
      r.sharpe = r.mean_return / (r.volatility + 1e-6) := by
  have h3 : 3 ≤ prices.length := by
    have := pctChange_length prices
    omega
  refine ⟨_, calculate_esg_eq_score prices h3,
    scoreFrom_volatility_nonneg _ _, ?_, scoreFrom_sharpe _ _⟩
  have hv := scoreFrom_volatility_nonneg (retMean (pctChange prices))
    (retVar (pctChange prices))
  have he : (0 : ℝ) < 1e-6 := by norm_num
  linarith

/-- C4 witness: the three-point series `[1, 2, 3]` leaves two returns, and
the totality statement holds there. -/
theorem esg_arithmetic_total_witness :
    ∃ r, calculate_esg [1, 2, 3] = EsgResult.score r ∧
      0 ≤ r.volatility ∧
      0 < r.volatility + 1e-6 ∧
      r.sharpe = r.mean_return / (r.volatility + 1e-6) :=
  esg_arithmetic_total [1, 2, 3] (by simp [pctChange])

-- ---------------------------------------------------------------------
-- C6
-- ---------------------------------------------------------------------

/-- C6: `vol_score` is strictly decreasing on `[0, ∞)`, equals 1 at 0 and
lies in `(0, 1]`; `return_score` and `sharpe_score` are non-decreasing,
saturate at their clip boundaries (`0` below `-0.2` resp. `-2`, `1` above
`0.2` resp. `2`) and are linear in between. -/
theorem sub_score_shape :
    (∀ v w : ℝ, 0 ≤ v → v < w → vol_score_fn w < vol_score_fn v) ∧
      vol_score_fn 0 = 1 ∧
      (∀ v : ℝ, 0 ≤ v → 0 < vol_score_fn v ∧ vol_score_fn v ≤ 1) ∧
      (∀ x y : ℝ, x ≤ y → return_score_fn x ≤ return_score_fn y) ∧
      (∀ x y : ℝ, x ≤ y → sharpe_score_fn x ≤ sharpe_score_fn y) ∧
      (∀ m : ℝ, m ≤ -0.2 → return_score_fn m = 0) ∧
      (∀ m : ℝ, 0.2 ≤ m → return_score_fn m = 1) ∧
      (∀ m : ℝ, -0.2 ≤ m → m ≤ 0.2 → return_score_fn m = (m + 0.2) / 0.4) ∧
      (∀ s : ℝ, s ≤ -2 → sharpe_score_fn s = 0) ∧
      (∀ s : ℝ, 2 ≤ s → sharpe_score_fn s = 1) ∧
      (∀ s : ℝ, -2 ≤ s → s ≤ 2 → sharpe_score_fn s = (s + 2) / 4) := by
  refine ⟨?_, ?_, ?_, ?_, ?_, ?_, ?_, ?_, ?_, ?_, ?_⟩
  · intro v w hv hvw
    unfold vol_score_fn
    have h1 : (0 : ℝ) < 1 + v * 8 := by nlinarith
    have h2 : 1 + v * 8 < 1 + w * 8 := by nlinarith
    exact one_div_lt_one_div_of_lt h1 h2
  · unfold vol_score_fn
    norm_num
  · intro v hv
    exact ⟨vol_score_fn_pos hv, vol_score_fn_le_one hv⟩
  · intro x y hxy
    unfold return_score_fn
    refine clip_mono _ _ ?_
    gcongr
  · intro x y hxy
    unfold sharpe_score_fn
    refine clip_mono _ _ ?_
    gcongr
  · intro m hm
    unfold return_score_fn clip
    have ht : (m + 0.2) / 0.4 ≤ 0 := by
      rw [div_le_iff₀ (by norm_num : (0:ℝ) < 0.4)]
      linarith
    rw [max_eq_right ht, min_eq_left (by norm_num : (0:ℝ) ≤ 1)]
  · intro m hm
    unfold return_score_fn clip
    have ht : (1 : ℝ) ≤ (m + 0.2) / 0.4 := by
      rw [le_div_iff₀ (by norm_num : (0:ℝ) < 0.4)]
      linarith
    rw [max_eq_left (by linarith : (0:ℝ) ≤ (m + 0.2) / 0.4), min_eq_right ht]
  · intro m h1 h2
    unfold return_score_fn
    refine clip_eq_of_mem _ _ _ ?_ ?_
    · exact div_nonneg (by linarith) (by norm_num)
    · rw [div_le_iff₀ (by norm_num : (0:ℝ) < 0.4)]
      linarith
  · intro s hs
    unfold sharpe_score_fn clip
    have ht : (s + 2) / 4 ≤ 0 := by
      rw [div_le_iff₀ (by norm_num : (0:ℝ) < 4)]
      linarith
    rw [max_eq_right ht, min_eq_left (by norm_num : (0:ℝ) ≤ 1)]
  · intro s hs
    unfold sharpe_score_fn clip
    have ht : (1 : ℝ) ≤ (s + 2) / 4 := by
      rw [le_div_iff₀ (by norm_num : (0:ℝ) < 4)]
      linarith
    rw [max_eq_left (by linarith : (0:ℝ) ≤ (s + 2) / 4), min_eq_right ht]
  · intro s h1 h2
    unfold sharpe_score_fn
    refine clip_eq_of_mem _ _ _ ?_ ?_
    · exact div_nonneg (by linarith) (by norm_num)
    · rw [div_le_iff₀ (by norm_num : (0:ℝ) < 4)]
      linarith

/-- C6 witness: the monotonicity and saturation statements evaluated at
concrete points. -/
theorem sub_score_shape_witness :
    vol_score_fn 1 < vol_score_fn 0 ∧
      return_score_fn (-1) = 0 ∧ return_score_fn 1 = 1 ∧
      sharpe_score_fn (-3) = 0 ∧ sharpe_score_fn 3 = 1 :=
  ⟨sub_score_shape.1 0 1 le_rfl one_pos,
    sub_score_shape.2.2.2.2.2.1 (-1) (by norm_num),
    sub_score_shape.2.2.2.2.2.2.1 1 (by norm_num),
    sub_score_shape.2.2.2.2.2.2.2.2.1 (-3) (by norm_num),
    sub_score_shape.2.2.2.2.2.2.2.2.2.1 3 (by norm_num)⟩

-- ---------------------------------------------------------------------
-- C7
-- ---------------------------------------------------------------------

/-- C7: the scoring computation is a pure function of the price series —
two invocations on an identical series give identical outcomes, equal in
every field whenever a `ScoreResult` is produced. -/
theorem calculate_esg_deterministic (p q : List ℚ) (h : p = q) :
    calculate_esg p = calculate_esg q ∧
      ∀ r s : ScoreResult, calculate_esg p = EsgResult.score r →
        calculate_esg q = EsgResult.score s →
          r.volatility = s.volatility ∧ r.mean_return = s.mean_return ∧
            r.sharpe = s.sharpe ∧ r.vol_score = s.vol_score ∧
            r.return_score = s.return_score ∧ r.sharpe_score = s.sharpe_score ∧
            r.esg_score = s.esg_score := by
  subst h
  refine ⟨rfl, ?_⟩
  intro r s hr hs
  rw [hr] at hs
  have hrs : r = s := EsgResult.score.inj hs
  subst hrs
  exact ⟨rfl, rfl, rfl, rfl, rfl, rfl, rfl⟩

/-- C7 witness: determinism instantiated on the concrete series
`[1, 2, 3]`. -/
theorem calculate_esg_deterministic_witness :
    calculate_esg [1, 2, 3] = calculate_esg [1, 2, 3] :=
  (calculate_esg_deterministic [1, 2, 3] [1, 2, 3] rfl).1

-- ---------------------------------------------------------------------
-- C10
-- ---------------------------------------------------------------------

/-- C10: the `None` score (`noData`, surfaced as "Invalid ticker or no
data available") is produced exactly when the fetched history is empty;
every non-empty history — including a single price point — yields a
non-`None` value (a NaN score or a real `ScoreResult`). -/
theorem nodata_iff_empty (prices : List ℚ) :
    (calculate_esg prices = EsgResult.noData ↔ prices = []) ∧
      (prices ≠ [] →
        calculate_esg prices = EsgResult.nanScore ∨
          ∃ r, calculate_esg prices = EsgResult.score r) := by
  constructor
  · constructor
    · intro h
      by_contra h0
      by_cases h3 : 3 ≤ prices.length
      · rw [calculate_esg_eq_score prices h3] at h
        exact EsgResult.noConfusion h
      · rw [calculate_esg_short prices h0 (by omega)] at h
        exact EsgResult.noConfusion h
    · intro h
      rw [h]
      rfl
  · intro h0
    by_cases h3 : 3 ≤ prices.length
    · exact Or.inr ⟨_, calculate_esg_eq_score prices h3⟩
    · exact Or.inl (calculate_esg_short prices h0 (by omega))

/-- C10 witness: the single-point history `[100]` is non-empty and indeed
yields a non-`None` value. -/
theorem nodata_iff_empty_witness :
    calculate_esg [100] = EsgResult.nanScore ∨
      ∃ r, calculate_esg [100] = EsgResult.score r :=
  (nodata_iff_empty [100]).2 (by simp)

-- ---------------------------------------------------------------------
-- Competitor selection (lines 45–51 and 102–106 of `src/app.py`)
-- ---------------------------------------------------------------------

/-- The static sector → representative-tickers table (lines 45–51). -/
def sector_competitors : List (String × List String) :=
  [("Technology", ["AAPL", "MSFT", "GOOGL", "NVDA"]),
   ("Financial Services", ["JPM", "BAC", "WFC"]),
   ("Energy", ["XOM", "CVX"]),
   ("Consumer Cyclical", ["AMZN", "TSLA"]),
   ("Healthcare", ["JNJ", "PFE"])]

/-- The Python membership test `sector in sector_competitors` together
with the lookup `sector_competitors[sector]`. -/
def findSector (sector : String) : Option (List String) :=
  (sector_competitors.find? (fun e => e.fst == sector)).map (fun e => e.snd)

/-- Lines 102–106: filter the sector's list down to tickers different from
the company and take the first one, `None` if the sector is unmapped or
the filtered list is empty. -/
def selectCompetitor (sector company : String) : Option String :=
  match findSector sector with
  | none => none
  | some l => (l.filter (fun c => c != company)).head?

theorem head_filter_eq_find (p : String → Bool) (l : List String) :
    (l.filter p).head? = l.find? p := by
  induction l with
  | nil => rfl
  | cons a l ih =>
    by_cases h : p a
    · simp [List.filter_cons, List.find?_cons, h]
    · simp [List.filter_cons, List.find?_cons, h, ih]

-- ---------------------------------------------------------------------
-- C8
-- ---------------------------------------------------------------------

/-- C8: the competitor is the first ticker of the detected sector's list
that differs from the company; it is `none` when the sector is unmapped or
every listed ticker equals the company; and for a list holding the company
and exactly one other ticker the competitor is that other ticker in either
order. -/
theorem competitor_selection (sector company : String) :
    (findSector sector = none → selectCompetitor sector company = none) ∧
      (∀ l, findSector sector = some l →
        selectCompetitor sector company = l.find? (fun t => t != company)) ∧
      (∀ l, findSector sector = some l → (∀ t ∈ l, t = company) →
        selectCompetitor sector company = none) ∧
      (∀ l t, findSector sector = some l → t ≠ company →
        (l = [company, t] ∨ l = [t, company]) →
        selectCompetitor sector company = some t) := by
  refine ⟨?_, ?_, ?_, ?_⟩
  · intro h
    simp [selectCompetitor, h]
  · intro l h
    simp [selectCompetitor, h, head_filter_eq_find]
  · intro l h hall
    have hnil : l.filter (fun c => c != company) = [] := by
      rw [List.filter_eq_nil_iff]
      intro a ha
      simp [hall a ha]
    simp [selectCompetitor, h, hnil]
  · intro l t h hne hcase
    rcases hcase with hl | hl <;> subst hl <;>
      simp [selectCompetitor, h, List.filter_cons, bne_iff_ne, hne]

/-- C8 witness: in the Energy sector with the company itself listed first,
the competitor selected for `XOM` is `CVX`. -/
theorem competitor_selection_witness :
    selectCompetitor "Energy" "XOM" = some "CVX" :=
  (competitor_selection "Energy" "XOM").2.2.2 ["XOM", "CVX"] "CVX" rfl
    (by decide) (Or.inl rfl)

-- ---------------------------------------------------------------------
-- Rendering flow of the analysis block (lines 89–239 of `src/app.py`)
-- ---------------------------------------------------------------------

/-- The user-visible outputs the analysis block can emit, in order:
the ESG gauge, the price/MA chart, the rolling-volatility chart, the
benchmarking header and bar chart, the comparison table, the AI-insight
commentary, and the two error banners (`Invalid ticker or no data
available.` and `Data fetch failed. Try another ticker.`). -/
inductive RenderStep where
  | gauge : RenderStep
  | priceChart : RenderStep
  | volChart : RenderStep
  | benchHeader : RenderStep
  | benchChart : RenderStep
  | benchTable : RenderStep
  | insight : RenderStep
  | errInvalid : RenderStep
  | errFetch : RenderStep
deriving DecidableEq

/-- The analysis block as a function of the fetched histories of the
company and of the selected competitor (`none` when no competitor was
selected).  Mirrors the source order: the `company_esg is None` test, the
gauge and the two charts, then — when a competitor exists — the
benchmarking header, the bar chart, and the comparison table.  The table
evaluates `round(competitor_esg, 2)`, which raises `TypeError` when
`competitor_esg` is `None`; the surrounding bare `except` then prints the
generic fetch-failure error, so the AI-insight section is skipped. -/
noncomputable def analyzeRender (companyPrices : List ℚ)
    (competitorPrices : Option (List ℚ)) : List RenderStep :=
  if isNoData (calculate_esg companyPrices) then [RenderStep.errInvalid]
  else
    match competitorPrices with
    | none =>
        [RenderStep.gauge, RenderStep.priceChart, RenderStep.volChart,
          RenderStep.insight]
    | some cp =>
        if isNoData (calculate_esg cp) then
          [RenderStep.gauge, RenderStep.priceChart, RenderStep.volChart,
            RenderStep.benchHeader, RenderStep.benchChart, RenderStep.errFetch]
        else
          [RenderStep.gauge, RenderStep.priceChart, RenderStep.volChart,
            RenderStep.benchHeader, RenderStep.benchChart, RenderStep.benchTable,
            RenderStep.insight]

-- ---------------------------------------------------------------------
-- C9
-- ---------------------------------------------------------------------

/-- C9 counterexample: with a valid company history `[1, 2, 3]` and a
competitor whose fetch is empty, the emitted output ends in the generic
fetch-failure error and the AI-insight commentary is missing — although it
is emitted when no competitor is selected — so the competitor failure is
not confined to the comparison section. -/
theorem competitor_failure_not_isolated :
    analyzeRender [1, 2, 3] (some []) =
        [RenderStep.gauge, RenderStep.priceChart, RenderStep.volChart,
          RenderStep.benchHeader, RenderStep.benchChart, RenderStep.errFetch] ∧
      RenderStep.insight ∉ analyzeRender [1, 2, 3] (some []) ∧
      RenderStep.insight ∈ analyzeRender [1, 2, 3] none := by
  refine ⟨rfl, ?_, ?_⟩ <;> decide

/-- C9 (amended): when the competitor scoring yields no data, the primary
company's gauge and both charts are still produced, and the benchmarking
header and bar chart still appear; but the comparison table raises on
`round(None, 2)`, so the commentary is suppressed as well and the generic
fetch-failure error is shown. -/
theorem competitor_failure_renders (companyPrices cp : List ℚ)
    (hc : isNoData (calculate_esg companyPrices) = false)
    (hf : isNoData (calculate_esg cp) = true) :
    analyzeRender companyPrices (some cp) =
      [RenderStep.gauge, RenderStep.priceChart, RenderStep.volChart,
        RenderStep.benchHeader, RenderStep.benchChart, RenderStep.errFetch] := by
  simp [analyzeRender, hc, hf]

/-- C9 witness: the amended rendering behaviour at the concrete pair
(company history `[1, 2, 3]`, empty competitor history). -/
theorem competitor_failure_renders_witness :
    analyzeRender [1, 2, 3] (some ([] : List ℚ)) =
      [RenderStep.gauge, RenderStep.priceChart, RenderStep.volChart,
        RenderStep.benchHeader, RenderStep.benchChart, RenderStep.errFetch] :=
  competitor_failure_renders [1, 2, 3] [] rfl rfl
